import Mathlib

/-!
Verification of the Linear predictor and Decision Aggregator of the
predictive-horizontal-pod-autoscaler repository, as a shallow embedding in
Lean 4.  Machine integers (Go `int`, `int32`) are modelled as `Int` and
lengths/capacities as `Nat`; fallible Go calls returning `(value, error)`
pairs are modelled as Lean pairs of the value and an `Option` error.
-/

namespace PHPA

/-- The payload of a stored evaluation (Go `stored.DBEvaluation`): at minimum
the target replica count. -/
structure DBEvaluation where
  TargetReplicas : Int
deriving Repr, DecidableEq

/-- A stored evaluation (Go `stored.Evaluation`): a caller-assigned `ID`, a
`Created` timestamp (modelled as an integer time value; only its ordering
matters), and the evaluation payload. -/
structure StoredEvaluation where
  ID : Int
  Created : Int
  Evaluation : DBEvaluation
deriving Repr, DecidableEq

/-- The Linear model's type-specific configuration block (Go `config.Linear`):
`lookAhead` in milliseconds and `storedValues`, the maximum retained history
length (a count, hence `Nat`). -/
structure Linear where
  lookAhead : Int
  storedValues : Nat
deriving Repr, DecidableEq

/-- A model configuration (Go `config.Model`), restricted to the part the
Linear predictor reads: the optional Linear configuration block (`nil` in Go
becomes `none`). -/
structure Model where
  linear : Option Linear
deriving Repr, DecidableEq

/-- The classified failure outcomes of the Linear predictor, as named by the
specification.  `algorithmExecutionError` and `invalidResultError` carry the
underlying cause / the unparsable value, as the Go code passes the underlying
error through.  `nilRunnerFault` models the Go runtime fault of invoking a
`nil` Runner (possible only on the regression path). -/
inductive PredictError where
  | configurationError : PredictError
  | insufficientDataError : PredictError
  | algorithmExecutionError (cause : String) : PredictError
  | invalidResultError (value : String) : PredictError
  | nilRunnerFault : PredictError
deriving Repr, DecidableEq

/-- The external algorithm runner capability (Go `algorithm.Runner`'s
`RunAlgorithmWithValue`): takes the serialized value string and a timeout in
milliseconds, and either succeeds with an output string or fails with an
error message. -/
def RunnerFn : Type := String → Int → Except String String

/-- The Linear predictor instance (Go `linear.Predict`): holds the injected
Runner port; `none` models Go's zero value with a `nil` Runner. -/
structure Predict where
  Runner : Option RunnerFn

/-- Modelled from the spec: the constant model-type discriminator
(Go `linear.Type`; `Type` is a Lean keyword, hence the name). -/
def linearType : String := "Linear"

/-- Modelled from the spec (the source file `linear.go` is absent from the
sources; only its tests are): `GetType` is a pure constant, independent of
instance state. -/
def GetType (_ : Predict) : String := linearType

/-- Modelled from the spec: the timeout in milliseconds bounding the external
regression invocation. -/
def algorithmTimeout : Int := 30000

/-- Modelled from the spec (serialization details of `linear.go` are absent
from the sources): the serialized value string passed to the external
regression routine, carrying `lookAhead` together with the evaluation
history as supplied by the caller. -/
def serializeValue (cfg : Linear) (evaluations : List StoredEvaluation) : String :=
  toString cfg.lookAhead ++ "|"
    ++ toString (evaluations.map (fun e => e.Evaluation.TargetReplicas))

/-- Modelled from the spec: the numeric value of one decimal digit character,
`none` when the character is not a digit. -/
def digitVal (c : Char) : Option Nat :=
  if '0' ≤ c ∧ c ≤ '9' then some (c.toNat - 48) else none

/-- Modelled from the spec: accumulate decimal digits left to right; fails on
the first non-digit character. -/
def parseDigits : List Char → Nat → Option Nat
  | [], acc => some acc
  | c :: cs, acc =>
    match digitVal c with
    | none => none
    | some d => parseDigits cs (10 * acc + d)

/-- Modelled from the spec (the integer parse of the external routine's
result, Go `strconv.Atoi` inside the absent `linear.go`): an optional sign
followed by one or more decimal digits; anything else fails. -/
def atoi (s : String) : Option Int :=
  match s.data with
  | [] => none
  | '-' :: [] => none
  | '-' :: cs => (parseDigits cs 0).map (fun n => -(n : Int))
  | '+' :: [] => none
  | '+' :: cs => (parseDigits cs 0).map (fun n => (n : Int))
  | cs => (parseDigits cs 0).map (fun n => (n : Int))

/-- Modelled from the spec (the body of `linear.go`'s `GetPrediction` is
absent from the sources; behaviour fixed by §4.2 of the spec and by
`linear_test.go`): configuration check, empty-history check, single-point
short-circuit, then the external regression call whose decimal string result
is parsed as an integer.  Returns the Go-style `(int32, error)` pair. -/
def GetPrediction (p : Predict) (model : Model)
    (evaluations : List StoredEvaluation) : Int × Option PredictError :=
  match model.linear with
  | none => (0, some .configurationError)
  | some cfg =>
    match evaluations with
    | [] => (0, some .insufficientDataError)
    | [e] => (e.Evaluation.TargetReplicas, none)
    | _ =>
      match p.Runner with
      | none => (0, some .nilRunnerFault)
      | some run =>
        match run (serializeValue cfg evaluations) algorithmTimeout with
        | .error cause => (0, some (.algorithmExecutionError cause))
        | .ok value =>
          match atoi value with
          | none => (0, some (.invalidResultError value))
          | some n => (n, none)

/-- Ordering of stored evaluations by `Created` timestamp, ascending
(oldest first). -/
def createdLE (a b : StoredEvaluation) : Prop := a.Created ≤ b.Created

instance : DecidableRel createdLE := fun a b =>
  inferInstanceAs (Decidable (a.Created ≤ b.Created))

instance : IsTotal StoredEvaluation createdLE :=
  ⟨fun a b => Int.le_total a.Created b.Created⟩

instance : IsTrans StoredEvaluation createdLE :=
  ⟨fun _ _ _ h1 h2 => le_trans h1 h2⟩

/-- Modelled from the spec (the body of `linear.go`'s `GetIDsToRemove` is
absent from the sources; behaviour fixed by §4.2/§8 of the spec and by
`linear_test.go`): configuration check; if the history fits within
`storedValues` nothing is removed, otherwise the evaluations are sorted
ascending by `Created` and the IDs of the surplus oldest entries are
returned, oldest first. -/
def GetIDsToRemove (model : Model) (evaluations : List StoredEvaluation) :
    List Int × Option PredictError :=
  match model.linear with
  | none => ([], some .configurationError)
  | some cfg =>
    if evaluations.length ≤ cfg.storedValues then ([], none)
    else
      (((List.insertionSort createdLE evaluations).take
          (evaluations.length - cfg.storedValues)).map (fun e => e.ID), none)

/-- Modelled from the spec: round-half-up of the rational `sum / len`,
computed as the floor of `sum / len + 1 / 2` in exact integer arithmetic. -/
def roundHalfUp (sum len : Int) : Int := Int.fdiv (2 * sum + len) (2 * len)

/-- Modelled from the spec (the Decision Aggregator source is absent from
the sources): reduces the set of replica counts — the current evaluation's
target together with each model's prediction — to one integer according to
`decisionType`; an unrecognised `decisionType` is a configuration error. -/
def aggregate (decisionType : String) (values : List Int) :
    Except PredictError Int :=
  match values with
  | [] => Except.error .insufficientDataError
  | v :: vs =>
    if decisionType = "maximum" then Except.ok (vs.foldl max v)
    else if decisionType = "minimum" then Except.ok (vs.foldl min v)
    else if decisionType = "mean" then
      Except.ok (roundHalfUp (v :: vs).sum ((v :: vs).length : Int))
    else Except.error .configurationError

/-- The Linear configuration of the retention example in `linear_test.go`:
`storedValues` 3. -/
def exampleLinear : Linear := ⟨0, 3⟩

/-- The model of the retention example in `linear_test.go`. -/
def exampleModel : Model := ⟨some exampleLinear⟩

/-- The evaluations of the retention example in `linear_test.go`:
(ID, Created-seconds) = (1,4), (2,5), (5,1), (3,2), (8,3), (4,6). -/
def exampleEvaluations : List StoredEvaluation :=
  [⟨1, 4, ⟨0⟩⟩, ⟨2, 5, ⟨0⟩⟩, ⟨5, 1, ⟨0⟩⟩, ⟨3, 2, ⟨0⟩⟩, ⟨8, 3, ⟨0⟩⟩, ⟨4, 6, ⟨0⟩⟩]

theorem foldl_max_mem (vs : List Int) (v : Int) : vs.foldl max v ∈ v :: vs := by
  induction vs generalizing v with
  | nil => simp
  | cons b bs ih =>
    have h := ih (max v b)
    rcases max_choice v b with hm | hm <;> rw [hm] at h <;>
      simp only [List.foldl_cons, hm, List.mem_cons] at h ⊢ <;> tauto

theorem le_foldl_max (vs : List Int) (v : Int) :
    ∀ x ∈ v :: vs, x ≤ vs.foldl max v := by
  induction vs generalizing v with
  | nil => intro x hx; simp only [List.mem_cons, List.not_mem_nil, or_false] at hx
           simp [hx]
  | cons b bs ih =>
    intro x hx
    simp only [List.mem_cons] at hx
    simp only [List.foldl_cons]
    rcases hx with rfl | rfl | hx
    · exact le_trans (le_max_left x b) (ih (max x b) (max x b) (List.mem_cons_self _ _))
    · exact le_trans (le_max_right v x) (ih (max v x) (max v x) (List.mem_cons_self _ _))
    · exact ih (max v b) x (List.mem_cons_of_mem _ hx)

theorem foldl_min_mem (vs : List Int) (v : Int) : vs.foldl min v ∈ v :: vs := by
  induction vs generalizing v with
  | nil => simp
  | cons b bs ih =>
    have h := ih (min v b)
    rcases min_choice v b with hm | hm <;> rw [hm] at h <;>
      simp only [List.foldl_cons, hm, List.mem_cons] at h ⊢ <;> tauto

theorem foldl_min_le (vs : List Int) (v : Int) :
    ∀ x ∈ v :: vs, vs.foldl min v ≤ x := by
  induction vs generalizing v with
  | nil => intro x hx; simp only [List.mem_cons, List.not_mem_nil, or_false] at hx
           simp [hx]
  | cons b bs ih =>
    intro x hx
    simp only [List.mem_cons] at hx
    simp only [List.foldl_cons]
    rcases hx with rfl | rfl | hx
    · exact le_trans (ih (min x b) (min x b) (List.mem_cons_self _ _)) (min_le_left x b)
    · exact le_trans (ih (min v x) (min v x) (List.mem_cons_self _ _)) (min_le_right v x)
    · exact ih (min v b) x (List.mem_cons_of_mem _ hx)

theorem roundHalfUp_bounds (s n : Int) (hn : 0 < n) :
    2 * n * roundHalfUp s n ≤ 2 * s + n ∧
      2 * s + n < 2 * n * (roundHalfUp s n + 1) := by
  have h2n : (0 : Int) < 2 * n := by omega
  have hfd : roundHalfUp s n = (2 * s + n) / (2 * n) :=
    Int.fdiv_eq_ediv _ (le_of_lt h2n)
  have hadd := Int.ediv_add_emod (2 * s + n) (2 * n)
  have hnn := Int.emod_nonneg (2 * s + n) (ne_of_gt h2n)
  have hlt := Int.emod_lt_of_pos (2 * s + n) h2n
  constructor <;> rw [hfd] <;> linarith

/-- C1: with a Linear configuration block present, `GetIDsToRemove` returns
nothing when the history fits within `storedValues`; otherwise it returns
exactly the surplus count of IDs, those of the entries with the smallest
`Created` timestamps, in ascending order of `Created`; and the test example
(IDs 1,2,5,3,8,4 with Created seconds 4,5,1,2,3,6 and `storedValues` 3)
yields `[5, 3, 8]`. -/
theorem getIDsToRemove_retention (model : Model) (cfg : Linear)
    (evaluations : List StoredEvaluation) (hcfg : model.linear = some cfg) :
    (evaluations.length ≤ cfg.storedValues →
      GetIDsToRemove model evaluations = ([], none)) ∧
    (cfg.storedValues < evaluations.length →
      ∃ removed kept : List StoredEvaluation,
        List.Perm (removed ++ kept) evaluations ∧
        removed.length = evaluations.length - cfg.storedValues ∧
        List.Sorted createdLE removed ∧
        (∀ r ∈ removed, ∀ k ∈ kept, r.Created ≤ k.Created) ∧
        GetIDsToRemove model evaluations = (removed.map (fun e => e.ID), none)) ∧
    GetIDsToRemove exampleModel exampleEvaluations = ([5, 3, 8], none) := by
  refine ⟨?_, ?_, by decide⟩
  · intro hle
    simp [GetIDsToRemove, hcfg, hle]
  · intro hgt
    have hsorted := List.sorted_insertionSort createdLE evaluations
    have hperm := List.perm_insertionSort createdLE evaluations
    have hlen : (List.insertionSort createdLE evaluations).length
        = evaluations.length := hperm.length_eq
    refine ⟨(List.insertionSort createdLE evaluations).take
        (evaluations.length - cfg.storedValues),
      (List.insertionSort createdLE evaluations).drop
        (evaluations.length - cfg.storedValues), ?_, ?_, ?_, ?_, ?_⟩
    · rw [List.take_append_drop]; exact hperm
    · rw [List.length_take, hlen]; omega
    · exact List.Pairwise.sublist (List.take_sublist _ _) hsorted
    · have hsplit := (List.take_append_drop
        (evaluations.length - cfg.storedValues)
        (List.insertionSort createdLE evaluations)).symm
      rw [hsplit] at hsorted
      exact fun r hr k hk => (List.pairwise_append.mp hsorted).2.2 r hr k hk
    · simp only [GetIDsToRemove, hcfg]
      rw [if_neg (by omega)]

/-- C1 witness: the theorem applied to the concrete test example. -/
theorem getIDsToRemove_retention_witness :
    exampleModel.linear = some exampleLinear ∧
    GetIDsToRemove exampleModel exampleEvaluations = ([5, 3, 8], none) :=
  ⟨rfl, (getIDsToRemove_retention exampleModel exampleLinear
    exampleEvaluations rfl).2.2⟩

/-- C2: with a Linear configuration block present and exactly one
evaluation, `GetPrediction` returns that evaluation's `TargetReplicas` with
no error, and the result does not depend on the Runner. -/
theorem getPrediction_single_evaluation (p q : Predict) (model : Model)
    (cfg : Linear) (e : StoredEvaluation) (hcfg : model.linear = some cfg) :
    GetPrediction p model [e] = (e.Evaluation.TargetReplicas, none) ∧
    GetPrediction p model [e] = GetPrediction q model [e] := by
  simp [GetPrediction, hcfg]

/-- C2 witness: a single evaluation with 32 target replicas, a nil Runner. -/
theorem getPrediction_single_evaluation_witness :
    (⟨some ⟨0, 5⟩⟩ : Model).linear = some ⟨0, 5⟩ ∧
    GetPrediction ⟨none⟩ ⟨some ⟨0, 5⟩⟩ [⟨0, 0, ⟨32⟩⟩] = (32, none) :=
  ⟨rfl, (getPrediction_single_evaluation ⟨none⟩ ⟨none⟩ ⟨some ⟨0, 5⟩⟩ ⟨0, 5⟩
    ⟨0, 0, ⟨32⟩⟩ rfl).1⟩

/-- C3: with the Linear configuration block absent, both `GetPrediction`
and `GetIDsToRemove` fail with a configuration error, for every evaluations
list (the result is a constant independent of the evaluation data). -/
theorem missing_config_errors (p : Predict) (model : Model)
    (evaluations : List StoredEvaluation) (hcfg : model.linear = none) :
    GetPrediction p model evaluations = (0, some .configurationError) ∧
    GetIDsToRemove model evaluations = ([], some .configurationError) := by
  simp [GetPrediction, GetIDsToRemove, hcfg]

/-- C3 witness: the zero-value model with an empty evaluations list. -/
theorem missing_config_errors_witness :
    (⟨none⟩ : Model).linear = none ∧
    GetPrediction ⟨none⟩ ⟨none⟩ [] = (0, some .configurationError) ∧
    GetIDsToRemove ⟨none⟩ [] = ([], some .configurationError) :=
  ⟨rfl, missing_config_errors ⟨none⟩ ⟨none⟩ [] rfl⟩

/-- C4: with a Linear configuration block present, `GetPrediction` fails
with an insufficient-data error exactly when the evaluations list is empty:
an empty list yields that error, and a non-empty list never does. -/
theorem getPrediction_empty_insufficient (p : Predict) (model : Model)
    (cfg : Linear) (evaluations : List StoredEvaluation)
    (hcfg : model.linear = some cfg) :
    (evaluations = [] →
      GetPrediction p model evaluations = (0, some .insufficientDataError)) ∧
    (evaluations ≠ [] →
      (GetPrediction p model evaluations).2 ≠ some .insufficientDataError) := by
  constructor
  · rintro rfl
    simp [GetPrediction, hcfg]
  · intro hne
    cases evaluations with
    | nil => exact absurd rfl hne
    | cons a rest =>
      cases rest with
      | nil => simp [GetPrediction, hcfg]
      | cons b rest' =>
        simp only [GetPrediction, hcfg]
        cases p.Runner with
        | none => simp
        | some run =>
          rcases hr : run (serializeValue cfg (a :: b :: rest')) algorithmTimeout
            with cause | value
          · simp [hr]
          · rcases hp : atoi value with _ | n <;> simp [hr, hp]

/-- C4 witness: empty evaluations with a configured model yield the
insufficient-data error. -/
theorem getPrediction_empty_insufficient_witness :
    (⟨some ⟨0, 5⟩⟩ : Model).linear = some ⟨0, 5⟩ ∧
    GetPrediction ⟨none⟩ ⟨some ⟨0, 5⟩⟩ [] = (0, some .insufficientDataError) :=
  ⟨rfl, (getPrediction_empty_insufficient ⟨none⟩ ⟨some ⟨0, 5⟩⟩ ⟨0, 5⟩ []
    rfl).1 rfl⟩

/-- C5: with a Linear configuration block and at least two evaluations, a
failing Runner call makes `GetPrediction` fail with an algorithm-execution
error carrying the Runner's underlying cause. -/
theorem getPrediction_runner_failure (run : RunnerFn) (model : Model)
    (cfg : Linear) (evaluations : List StoredEvaluation) (cause : String)
    (hcfg : model.linear = some cfg) (hlen : 2 ≤ evaluations.length)
    (hrun : run (serializeValue cfg evaluations) algorithmTimeout
      = Except.error cause) :
    GetPrediction ⟨some run⟩ model evaluations
      = (0, some (.algorithmExecutionError cause)) := by
  cases evaluations with
  | nil => simp at hlen
  | cons a rest =>
    cases rest with
    | nil => simp at hlen
    | cons b rest' => simp [GetPrediction, hcfg, hrun]

/-- C5 witness: a Runner that always fails with cause "algorithm fail" on
two evaluations. -/
theorem getPrediction_runner_failure_witness :
    2 ≤ ([⟨0, 0, ⟨0⟩⟩, ⟨1, 0, ⟨0⟩⟩] : List StoredEvaluation).length ∧
    GetPrediction ⟨some (fun _ _ => Except.error "algorithm fail")⟩
        ⟨some ⟨0, 5⟩⟩ [⟨0, 0, ⟨0⟩⟩, ⟨1, 0, ⟨0⟩⟩]
      = (0, some (.algorithmExecutionError "algorithm fail")) :=
  ⟨by decide, getPrediction_runner_failure (fun _ _ => Except.error "algorithm fail")
    ⟨some ⟨0, 5⟩⟩ ⟨0, 5⟩ [⟨0, 0, ⟨0⟩⟩, ⟨1, 0, ⟨0⟩⟩] "algorithm fail"
    rfl (by decide) rfl⟩

/-- C6: with a Linear configuration block and at least two evaluations, a
Runner result that does not parse as an integer makes `GetPrediction` fail
with an invalid-result error naming the unparsable value. -/
theorem getPrediction_unparsable_result (run : RunnerFn) (model : Model)
    (cfg : Linear) (evaluations : List StoredEvaluation) (value : String)
    (hcfg : model.linear = some cfg) (hlen : 2 ≤ evaluations.length)
    (hrun : run (serializeValue cfg evaluations) algorithmTimeout
      = Except.ok value)
    (hparse : atoi value = none) :
    GetPrediction ⟨some run⟩ model evaluations
      = (0, some (.invalidResultError value)) := by
  cases evaluations with
  | nil => simp at hlen
  | cons a rest =>
    cases rest with
    | nil => simp at hlen
    | cons b rest' => simp [GetPrediction, hcfg, hrun, hparse]

/-- C6 witness: a Runner returning the unparsable string "invalid" on two
evaluations. -/
theorem getPrediction_unparsable_result_witness :
    atoi "invalid" = none ∧
    GetPrediction ⟨some (fun _ _ => Except.ok "invalid")⟩
        ⟨some ⟨0, 5⟩⟩ [⟨0, 0, ⟨0⟩⟩, ⟨1, 0, ⟨0⟩⟩]
      = (0, some (.invalidResultError "invalid")) :=
  ⟨by decide, getPrediction_unparsable_result (fun _ _ => Except.ok "invalid")
    ⟨some ⟨0, 5⟩⟩ ⟨0, 5⟩ [⟨0, 0, ⟨0⟩⟩, ⟨1, 0, ⟨0⟩⟩] "invalid"
    rfl (by decide) rfl (by decide)⟩

/-- C7: with a Linear configuration block and at least two evaluations, a
Runner result that parses as the integer `n` makes `GetPrediction` return
`n` with no error. -/
theorem getPrediction_parsable_result (run : RunnerFn) (model : Model)
    (cfg : Linear) (evaluations : List StoredEvaluation) (value : String)
    (n : Int) (hcfg : model.linear = some cfg) (hlen : 2 ≤ evaluations.length)
    (hrun : run (serializeValue cfg evaluations) algorithmTimeout
      = Except.ok value)
    (hparse : atoi value = some n) :
    GetPrediction ⟨some run⟩ model evaluations = (n, none) := by
  cases evaluations with
  | nil => simp at hlen
  | cons a rest =>
    cases rest with
    | nil => simp at hlen
    | cons b rest' => simp [GetPrediction, hcfg, hrun, hparse]

/-- C7 witness: a Runner returning "3" on two evaluations predicts 3. -/
theorem getPrediction_parsable_result_witness :
    atoi "3" = some 3 ∧
    GetPrediction ⟨some (fun _ _ => Except.ok "3")⟩
        ⟨some ⟨0, 5⟩⟩ [⟨0, 0, ⟨0⟩⟩, ⟨1, 0, ⟨0⟩⟩] = (3, none) :=
  ⟨by decide, getPrediction_parsable_result (fun _ _ => Except.ok "3")
    ⟨some ⟨0, 5⟩⟩ ⟨0, 5⟩ [⟨0, 0, ⟨0⟩⟩, ⟨1, 0, ⟨0⟩⟩] "3" 3
    rfl (by decide) rfl (by decide)⟩

/-- C8: over any non-empty input set of replica counts the aggregator
returns, for decisionType maximum, a member that bounds every input from
above; for minimum, a member that bounds every input from below; and for
mean, the value `r` with `2nr ≤ 2s + n < 2n(r+1)` (`s` the sum, `n` the
count), i.e. the arithmetic mean rounded to the nearest integer with halves
rounded up; over inputs 50, 32, 41 the results are 50, 32 and 41. -/
theorem aggregate_decision_types (values : List Int) (hne : values ≠ []) :
    (∃ m, aggregate "maximum" values = Except.ok m ∧ m ∈ values ∧
      ∀ v ∈ values, v ≤ m) ∧
    (∃ m, aggregate "minimum" values = Except.ok m ∧ m ∈ values ∧
      ∀ v ∈ values, m ≤ v) ∧
    (∃ r, aggregate "mean" values = Except.ok r ∧
      2 * (values.length : Int) * r ≤ 2 * values.sum + values.length ∧
      2 * values.sum + (values.length : Int)
        < 2 * (values.length : Int) * (r + 1)) ∧
    aggregate "maximum" [50, 32, 41] = Except.ok 50 ∧
    aggregate "minimum" [50, 32, 41] = Except.ok 32 ∧
    aggregate "mean" [50, 32, 41] = Except.ok 41 := by
  obtain ⟨v, vs, rfl⟩ : ∃ v vs, values = v :: vs := by
    cases values with
    | nil => exact absurd rfl hne
    | cons v vs => exact ⟨v, vs, rfl⟩
  have hbounds := roundHalfUp_bounds (v :: vs).sum ((v :: vs).length : Int)
    (by simp only [List.length_cons]; positivity)
  exact ⟨⟨vs.foldl max v, rfl, foldl_max_mem vs v, le_foldl_max vs v⟩,
    ⟨vs.foldl min v, rfl, foldl_min_mem vs v, foldl_min_le vs v⟩,
    ⟨roundHalfUp (v :: vs).sum ((v :: vs).length : Int), rfl,
      hbounds.1, hbounds.2⟩,
    rfl, rfl, rfl⟩

/-- C8 witness: the theorem applied to the concrete inputs 50, 32, 41. -/
theorem aggregate_decision_types_witness :
    ([50, 32, 41] : List Int) ≠ [] ∧
    aggregate "maximum" [50, 32, 41] = Except.ok 50 ∧
    aggregate "minimum" [50, 32, 41] = Except.ok 32 ∧
    aggregate "mean" [50, 32, 41] = Except.ok 41 :=
  ⟨by decide, (aggregate_decision_types [50, 32, 41] (by decide)).2.2.2⟩

/-- C9: `GetType` of the Linear predictor returns the constant string
"Linear" for every instance, whatever its state (in particular with no
Runner configured). -/
theorem getType_constant (p : Predict) : GetType p = "Linear" := rfl

/-- C10: whenever a Linear predictor call fails, the accompanying result is
the zero value: a failing `GetPrediction` returns replica count 0 and a
failing `GetIDsToRemove` returns the empty ID list. -/
theorem failing_calls_zero_value (p : Predict) (model : Model)
    (evaluations : List StoredEvaluation) :
    ((GetPrediction p model evaluations).2 ≠ none →
      (GetPrediction p model evaluations).1 = 0) ∧
    ((GetIDsToRemove model evaluations).2 ≠ none →
      (GetIDsToRemove model evaluations).1 = []) := by
  constructor
  · simp only [GetPrediction]
    split
    · simp
    · split
      · simp
      · simp
      · split
        · simp
        · split
          · simp
          · split <;> simp
  · simp only [GetIDsToRemove]
    split
    · simp
    · split <;> simp

/-- C10 witness: the theorem applied to the zero-value model, where both
calls fail. -/
theorem failing_calls_zero_value_witness :
    (GetPrediction ⟨none⟩ ⟨none⟩ []).1 = 0 ∧
    (GetIDsToRemove ⟨none⟩ []).1 = [] :=
  ⟨(failing_calls_zero_value ⟨none⟩ ⟨none⟩ []).1 (by decide),
   (failing_calls_zero_value ⟨none⟩ ⟨none⟩ []).2 (by decide)⟩

end PHPA
